import Mathlib

/-!
# perfcounterbeat: the name normalizer and the collection loop

A shallow embedding of `src/main.go` and `src/metric.go`.

Go strings are modelled as sequences of Unicode code points (`String`, with
`List Char` underneath), i.e. as valid UTF-8.  Provider status codes and
counts are Go `uint32` values, modelled as natural numbers with an explicit
`% 2 ^ 32` where the source multiplies them.
-/

namespace Perfcounterbeat

/-! ## Name normalizer (`src/main.go`, lines 102-137) -/

/-- The table of `strings.NewReplacer(".", "", "\\", ".", " ", "_")`: every old
string is a single byte, so the replacer works byte by byte and in one pass;
a dot is removed, a backslash becomes a dot, a space becomes an underscore, and
any other character is copied. -/
def replacerTable (c : Char) : List Char :=
  if c = '.' then []
  else if c = '\\' then ['.']
  else if c = ' ' then ['_']
  else [c]

/-- The call `r.Replace(normalizedName)` of that replacer. -/
def replacerReplace (s : List Char) : List Char :=
  s.flatMap replacerTable

/-- The rune mapping `unicode.ToLower` as far as the later steps can see it.
`A`-`Z` go to `a`-`z`; the only two non-ASCII runes whose lower case is ASCII
are U+0130 (to `i`) and U+212A, the Kelvin sign (to `k`).  Every other non-ASCII
rune is sent by Go to a non-ASCII rune; it is left in place here, which the
three regular expressions below cannot tell apart (each of them treats all
non-ASCII runes alike). -/
def unicodeToLower (c : Char) : Char :=
  if c.toNat = 0x130 then 'i'
  else if c.toNat = 0x212A then 'k'
  else c.toLower

/-- The call `strings.ToLower(rawName)`. -/
def stringsToLower (s : List Char) : List Char :=
  s.map unicodeToLower

/-- The character class `[a-z0-9]`. -/
def isLowerAlnum (c : Char) : Bool :=
  c.isLower || c.isDigit

/-- The Perl class `\s` of Go's regexp package: tab, line feed, form feed,
carriage return and space. -/
def isPerlSpace (c : Char) : Bool :=
  c == '\t' || c == '\n' || c == Char.ofNat 12 || c == '\r' || c == ' '

/-- The character class `[a-z0-9._]`. -/
def isAllowed (c : Char) : Bool :=
  isLowerAlnum c || c == '.' || c == '_'

/-- The call `re1.ReplaceAllString(s, "")` for `(^[^a-z0-9]+)|([^a-z0-9]+$)`.
Without the `m` flag `^` and `$` match only at the two ends of the text, and a
negated class matches every rune outside it, the line feed included.  The
leftmost match is therefore the maximal run of characters outside `[a-z0-9]` at
the start of the text, when there is one, and the only other match is the
maximal such run at the end: both runs are deleted. -/
def re1ReplaceAll (s : List Char) : List Char :=
  (s.dropWhile (fun c => !isLowerAlnum c)).rdropWhile (fun c => !isLowerAlnum c)

/-- The call `re2.ReplaceAllString(s, "_")` for `\s`: each whitespace
character becomes an underscore. -/
def re2ReplaceAll (s : List Char) : List Char :=
  s.map (fun c => if isPerlSpace c then '_' else c)

/-- The call `re3.ReplaceAllString(s, "")` for `[^a-z0-9._]`: each
character outside the class is deleted. -/
def re3ReplaceAll (s : List Char) : List Char :=
  s.filter isAllowed

/-- The function `normalizeMetricName`: lower-case, trim, whitespace to
underscore, allow-list. -/
def normalizeMetricName (rawName : String) : String :=
  let normalizedName := stringsToLower rawName.data
  let normalizedName := re1ReplaceAll normalizedName
  let normalizedName := re2ReplaceAll normalizedName
  let normalizedName := re3ReplaceAll normalizedName
  String.mk normalizedName

/-- The function `normalizePerfCounterMetricName`: the replacer, then
`normalizeMetricName`. -/
def normalizePerfCounterMetricName (rawName : String) : String :=
  let normalizedName := rawName
  let normalizedName := String.mk (replacerReplace normalizedName.data)
  normalizeMetricName normalizedName

/-- A character the normalizer keeps as a letter or a digit: an ASCII letter or
digit, or one of the two non-ASCII letters (U+0130 and the Kelvin sign U+212A)
that lower-casing turns into an ASCII letter. -/
def isAlphanumeric (c : Char) : Bool :=
  c.isAlphanum || c.toNat == 0x130 || c.toNat == 0x212A

/-- The string deleted of its dots. -/
def withoutDots (s : String) : String :=
  String.mk (s.data.filter (fun c => c != '.'))

/-- The first and the last character of a string, when it has any, are in
`[a-z0-9]`. -/
def EdgesAlnum (l : List Char) : Prop :=
  (∀ c, l.head? = some c → isLowerAlnum c = true) ∧
    (∀ c, l.getLast? = some c → isLowerAlnum c = true)

/-! ## Sample model (`src/metric.go`) -/

/-- The struct `Metric`. -/
structure Metric where
  Name : String
  Value : String
  Timestamp : Int
deriving DecidableEq

/-- The constructor `NewMetric`. -/
def NewMetric (name value : String) (timestamp : Int) : Metric :=
  { Name := name, Value := value, Timestamp := timestamp }

/-! ## Counter provider stub -/

/-- The status `win.ERROR_SUCCESS` of package `github.com/lxn/win`. -/
def ERROR_SUCCESS : Nat := 0

/-- The status `win.PDH_MORE_DATA` of package `github.com/lxn/win`. -/
def PDH_MORE_DATA : Nat := 0x800007D2

/-- The status `win.PDH_CSTATUS_BAD_COUNTERNAME` of package
`github.com/lxn/win`. -/
def PDH_CSTATUS_BAD_COUNTERNAME : Nat := 0xC0000BC0

/-- One `win.PDH_FMT_COUNTERVALUE_ITEM_DOUBLE` as the loop reads it: `SzName`
is the result of `win.UTF16PtrToString(c.SzName)` (the empty string for a nil
pointer) and `DoubleValue` is the text `fmt.Sprintf("%v", c.FmtValue.DoubleValue)`;
floating point itself stays outside the embedding. -/
structure CounterValueItem where
  SzName : String
  DoubleValue : String
deriving DecidableEq

/-- The zero value of the item type, as `make` fills a fresh slice with it: a nil
name pointer and the double `0`. -/
def zeroItem : CounterValueItem :=
  { SzName := "", DoubleValue := "0" }

/-- One answer of `win.PdhGetFormattedCounterArrayDouble`: the returned status,
the values it leaves in `*bufSize` and `*bufCount`, and the items it writes
from the start of the buffer it was handed. -/
structure ArrayCall where
  ret : Nat
  bufSize : Nat
  bufCount : Nat
  items : List CounterValueItem

/-- What the provider stub answers during one iteration of the loop: the status
of `PdhCollectQueryData`, the answer to the array call with the one-element
buffer, the answer to the array call with `filledBuf`, and the readings of
`time.Now().Unix()` (the reading taken for entry `i`). -/
structure Tick where
  collect : Nat
  first : ArrayCall
  second : ArrayCall
  clock : Nat → Int

/-- The provider stub: the status of each setup call, and the answers for the
successive iterations of the steady-state loop. -/
structure Provider where
  openQuery : Nat
  validatePath : String → Nat
  addEnglishCounter : String → Nat
  priming : Nat
  ticks : List Tick

/-- A call made to the provider during setup. -/
inductive Call where
  | openQuery
  | validatePath (counter : String)
  | addEnglishCounter (counter : String)
  | collectQueryData
deriving DecidableEq

/-! ## Collection loop (`src/main.go`, lines 31-100) -/

/-- Lines 80-83: the name given to the sample of an entry whose instance name
is `s`. -/
def metricName (counter s : String) : String :=
  let metricName := normalizePerfCounterMetricName counter
  if s.length > 0 then
    normalizePerfCounterMetricName counter ++ "." ++ normalizePerfCounterMetricName s
  else
    metricName

/-- Lines 85-88: the `Metric` appended for entry `c`, read at time `now`. -/
def itemMetric (counter : String) (c : CounterValueItem) (now : Int) : Metric :=
  { Name := metricName counter c.SzName, Value := c.DoubleValue, Timestamp := now }

/-- The buffer after the provider wrote `items` from its start; what a provider
would write past the end of the slice is not kept. -/
def writeBuf (items filledBuf : List CounterValueItem) : List CounterValueItem :=
  (items ++ filledBuf.drop items.length).take filledBuf.length

/-- Lines 76-89: the loop `for i := 0; i < int(bufCount); i++` with `todo`
iterations left from index `i` on; `int` is 64 bits wide, so that `int(bufCount)`
is the value of `bufCount`.  The result is `none` when `filledBuf[i]` is out of
range, which in Go is a run-time panic. -/
def collectItems (counter : String) (filledBuf : List CounterValueItem) (clock : Nat → Int) :
    Nat → Nat → List Metric → Option (List Metric)
  | 0, _, metric => some metric
  | todo + 1, i, metric =>
    match filledBuf[i]? with
    | none => none
    | some c => collectItems counter filledBuf clock todo (i + 1)
        (metric ++ [itemMetric counter c (clock i)])

/-- What one iteration of the loop does before it sleeps. -/
inductive TickOutcome where
  | published (batch : List Metric)
  | skipped
  | panicked
deriving DecidableEq

/-- Lines 61-93: one iteration of the loop body up to the send on `out`.
The parameter `size` is `unsafe.Sizeof(win.PDH_FMT_COUNTERVALUE_ITEM_DOUBLE{})`;
`bufCount*size` is a `uint32` product.  Taking `&filledBuf[0]` of an empty
slice panics. -/
def tick (size : Nat) (counter : String) (t : Tick) : TickOutcome :=
  if t.collect = ERROR_SUCCESS then
    if t.first.ret = PDH_MORE_DATA then
      let filledBuf := List.replicate ((t.first.bufCount * size) % 2 ^ 32) zeroItem
      if filledBuf.length = 0 then
        TickOutcome.panicked
      else
        let filledBuf := writeBuf t.second.items filledBuf
        if t.second.ret = ERROR_SUCCESS then
          match collectItems counter filledBuf t.clock t.second.bufCount 0 [] with
          | none => TickOutcome.panicked
          | some metric => TickOutcome.published metric
        else
          TickOutcome.published []
    else
      TickOutcome.published []
  else
    TickOutcome.skipped

/-- The batch one iteration sends, the empty batch when it sends none. -/
def tickBatch (size : Nat) (counter : String) (t : Tick) : List Metric :=
  match tick size counter t with
  | TickOutcome.published batch => batch
  | _ => []

/-- The array answers of an iteration stay inside the buffer the loop allocates:
when the collection pass succeeds and the first array call signals more data,
the slice of `bufCount*size` elements is not empty, and a successful second call
reports no more entries than the slice holds.  A provider that follows the
two-call protocol answers so: it signals more data only for at least one entry,
with a byte size that fits a `uint32`, and then fills what it announced. -/
def InBounds (size : Nat) (t : Tick) : Prop :=
  t.collect = ERROR_SUCCESS → t.first.ret = PDH_MORE_DATA →
    0 < (t.first.bufCount * size) % 2 ^ 32 ∧
      (t.second.ret = ERROR_SUCCESS →
        t.second.bufCount ≤ (t.first.bufCount * size) % 2 ^ 32)

instance (size : Nat) (t : Tick) : Decidable (InBounds size t) :=
  inferInstanceAs (Decidable (t.collect = ERROR_SUCCESS → t.first.ret = PDH_MORE_DATA →
    0 < (t.first.bufCount * size) % 2 ^ 32 ∧
      (t.second.ret = ERROR_SUCCESS →
        t.second.bufCount ≤ (t.first.bufCount * size) % 2 ^ 32)))

/-- The collection pass of an iteration succeeds. -/
def collectOk (t : Tick) : Bool :=
  decide (t.collect = ERROR_SUCCESS)

/-- What the background goroutine does that can be observed from outside. -/
inductive Event where
  | send (batch : List Metric)
  | sleep (nanoseconds : Int)
  | panic
deriving DecidableEq

/-- The `int64` wrap-around of `time.Duration(sleepInterval) * time.Second`. -/
def sleepDuration (sleepInterval : Int) : Int :=
  (sleepInterval * 1000000000 + 2 ^ 63) % 2 ^ 64 - 2 ^ 63

/-- Lines 59-97: the goroutine, run for as many iterations as the stub has
answers for.  Every send is taken to be received (the entry point ranges over
the channel).  A panic ends the process. -/
def steadyState (size : Nat) (counter : String) (sleepInterval : Int) : List Tick → List Event
  | [] => []
  | t :: rest =>
    match tick size counter t with
    | TickOutcome.published batch =>
      Event.send batch :: Event.sleep (sleepDuration sleepInterval) ::
        steadyState size counter sleepInterval rest
    | TickOutcome.skipped =>
      Event.sleep (sleepDuration sleepInterval) :: steadyState size counter sleepInterval rest
    | TickOutcome.panicked => [Event.panic]

/-- The batches received on the channel, in order. -/
def batches (events : List Event) : List (List Metric) :=
  events.filterMap (fun e => match e with
    | Event.send batch => some batch
    | _ => none)

/-- The two results of `readPerformanceCounter`, with the provider calls made
before it returned.  The channel is `none` for Go's nil channel; an open channel
is given by what the goroutine started for it does. -/
structure SetupResult where
  out : Option (List Event)
  err : Option String
  calls : List Call

/-- The verb `%x` of `fmt.Sprintf` at a `uint32`. -/
def hex (n : Nat) : String :=
  String.mk (Nat.toDigits 16 n)

/-- Lines 31-100: the function `readPerformanceCounter`. -/
def readPerformanceCounter (p : Provider) (size : Nat) (counter : String)
    (sleepInterval : Int) : SetupResult :=
  let ret := p.openQuery
  if ret ≠ ERROR_SUCCESS then
    { out := none, err := some "Unable to open query through DLL call",
      calls := [Call.openQuery] }
  else
    let ret := p.validatePath counter
    if ret = PDH_CSTATUS_BAD_COUNTERNAME then
      { out := none, err := some "Unable to fetch counter (this is unexpected)",
        calls := [Call.openQuery, Call.validatePath counter] }
    else
      let ret := p.addEnglishCounter counter
      if ret ≠ ERROR_SUCCESS then
        { out := none,
          err := some ("Unable to add process counter. Error code is " ++ hex ret ++ "\n"),
          calls := [Call.openQuery, Call.validatePath counter, Call.addEnglishCounter counter] }
      else
        let ret := p.priming
        if ret ≠ ERROR_SUCCESS then
          { out := none, err := some ("Got an error: 0x" ++ hex ret ++ "\n"),
            calls := [Call.openQuery, Call.validatePath counter,
              Call.addEnglishCounter counter, Call.collectQueryData] }
        else
          { out := some (steadyState size counter sleepInterval p.ticks), err := none,
            calls := [Call.openQuery, Call.validatePath counter,
              Call.addEnglishCounter counter, Call.collectQueryData] }

/-- Setup fails: the session does not open, or validation reports a bad counter
name, or registration does not succeed, or the priming pass does not succeed. -/
def SetupFails (p : Provider) (counter : String) : Prop :=
  p.openQuery ≠ ERROR_SUCCESS ∨ p.validatePath counter = PDH_CSTATUS_BAD_COUNTERNAME ∨
    p.addEnglishCounter counter ≠ ERROR_SUCCESS ∨ p.priming ≠ ERROR_SUCCESS

/-! ## Concrete stubs -/

/-- An array answer that is not consulted. -/
def noAnswer : ArrayCall :=
  { ret := ERROR_SUCCESS, bufSize := 0, bufCount := 0, items := [] }

/-- The entries of two instances, `_Total` and `0`. -/
def twoItems : List CounterValueItem :=
  [{ SzName := "_Total", DoubleValue := "12.5" }, { SzName := "0", DoubleValue := "3" }]

/-- An iteration whose collection pass succeeds and whose array read follows the
two-call protocol with two instances. -/
def twoInstanceTick : Tick :=
  { collect := ERROR_SUCCESS,
    first := { ret := PDH_MORE_DATA, bufSize := 96, bufCount := 2, items := [] },
    second := { ret := ERROR_SUCCESS, bufSize := 96, bufCount := 2, items := twoItems },
    clock := fun _ => 1478041200 }

/-- An iteration whose collection pass fails with `PDH_NO_DATA`. -/
def failedTick : Tick :=
  { collect := 0x800007D5, first := noAnswer, second := noAnswer, clock := fun _ => 1478041210 }

/-- An iteration whose first array call already returns success, reporting one
instance. -/
def firstCallSuccessTick : Tick :=
  { collect := ERROR_SUCCESS,
    first := { ret := ERROR_SUCCESS, bufSize := 24, bufCount := 1, items := [zeroItem] },
    second := noAnswer,
    clock := fun _ => 1478041220 }

/-- An iteration whose first array call signals more data for zero instances. -/
def zeroCountTick : Tick :=
  { collect := ERROR_SUCCESS,
    first := { ret := PDH_MORE_DATA, bufSize := 0, bufCount := 0, items := [] },
    second := noAnswer,
    clock := fun _ => 1478041230 }

/-- A provider whose path validation reports a bad counter name. -/
def badNameProvider : Provider :=
  { openQuery := ERROR_SUCCESS,
    validatePath := fun _ => PDH_CSTATUS_BAD_COUNTERNAME,
    addEnglishCounter := fun _ => ERROR_SUCCESS,
    priming := ERROR_SUCCESS,
    ticks := [twoInstanceTick] }


/-! ## Characters -/

theorem char_eq_iff_toNat (c d : Char) : c = d ↔ c.toNat = d.toNat :=
  ⟨fun h => by rw [h], fun h => by rw [← Char.ofNat_toNat c, h, Char.ofNat_toNat]⟩

theorem isLower_iff (c : Char) : c.isLower = true ↔ 97 ≤ c.toNat ∧ c.toNat ≤ 122 := by
  simp only [Char.isLower, Char.toNat, Bool.and_eq_true, decide_eq_true_eq, ge_iff_le,
    UInt32.le_def, BitVec.le_def]
  exact Iff.rfl

theorem isDigit_iff (c : Char) : c.isDigit = true ↔ 48 ≤ c.toNat ∧ c.toNat ≤ 57 := by
  simp only [Char.isDigit, Char.toNat, Bool.and_eq_true, decide_eq_true_eq, ge_iff_le,
    UInt32.le_def, BitVec.le_def]
  exact Iff.rfl

theorem isUpper_iff (c : Char) : c.isUpper = true ↔ 65 ≤ c.toNat ∧ c.toNat ≤ 90 := by
  simp only [Char.isUpper, Char.toNat, Bool.and_eq_true, decide_eq_true_eq, ge_iff_le,
    UInt32.le_def, BitVec.le_def]
  exact Iff.rfl

theorem isLowerAlnum_iff (c : Char) :
    isLowerAlnum c = true ↔
      (97 ≤ c.toNat ∧ c.toNat ≤ 122) ∨ (48 ≤ c.toNat ∧ c.toNat ≤ 57) := by
  simp only [isLowerAlnum, Bool.or_eq_true, isLower_iff, isDigit_iff]

theorem isAllowed_iff (c : Char) :
    isAllowed c = true ↔
      (97 ≤ c.toNat ∧ c.toNat ≤ 122) ∨ (48 ≤ c.toNat ∧ c.toNat ≤ 57) ∨
        c.toNat = 46 ∨ c.toNat = 95 := by
  simp only [isAllowed, Bool.or_eq_true, isLowerAlnum_iff, beq_iff_eq, char_eq_iff_toNat c]
  have h1 : ('.' : Char).toNat = 46 := rfl
  have h2 : ('_' : Char).toNat = 95 := rfl
  rw [h1, h2]
  tauto

theorem isPerlSpace_iff (c : Char) :
    isPerlSpace c = true ↔
      c.toNat = 9 ∨ c.toNat = 10 ∨ c.toNat = 12 ∨ c.toNat = 13 ∨ c.toNat = 32 := by
  simp only [isPerlSpace, Bool.or_eq_true, beq_iff_eq, char_eq_iff_toNat c]
  have h1 : ('\t' : Char).toNat = 9 := rfl
  have h2 : ('\n' : Char).toNat = 10 := rfl
  have h3 : (Char.ofNat 12).toNat = 12 := rfl
  have h4 : ('\r' : Char).toNat = 13 := rfl
  have h5 : (' ' : Char).toNat = 32 := rfl
  rw [h1, h2, h3, h4, h5]
  tauto

theorem toNat_toLower (c : Char) :
    c.toLower.toNat = if 65 ≤ c.toNat ∧ c.toNat ≤ 90 then c.toNat + 32 else c.toNat := by
  unfold Char.toLower
  by_cases h : 65 ≤ c.toNat ∧ c.toNat ≤ 90
  · simp only [ge_iff_le, h, and_self, if_true]
    obtain ⟨h1, h2⟩ := h
    generalize c.toNat = n at h1 h2
    interval_cases n <;> rfl
  · simp only [ge_iff_le, h, if_false]

theorem toNat_unicodeToLower (c : Char) :
    (unicodeToLower c).toNat =
      if c.toNat = 0x130 then 105
      else if c.toNat = 0x212A then 107
      else if 65 ≤ c.toNat ∧ c.toNat ≤ 90 then c.toNat + 32 else c.toNat := by
  unfold unicodeToLower
  split_ifs <;> first | rfl | simp_all [toNat_toLower]

theorem isLowerAlnum_unicodeToLower (c : Char) :
    isLowerAlnum (unicodeToLower c) = isAlphanumeric c := by
  rw [Bool.eq_iff_iff, isLowerAlnum_iff, toNat_unicodeToLower]
  simp only [isAlphanumeric, Char.isAlphanum, Char.isAlpha, Bool.or_eq_true, isUpper_iff,
    isLower_iff, isDigit_iff, beq_iff_eq]
  split_ifs <;> omega

theorem unicodeToLower_of_isAllowed (c : Char) (h : isAllowed c = true) :
    unicodeToLower c = c := by
  rw [char_eq_iff_toNat, toNat_unicodeToLower]
  rw [isAllowed_iff] at h
  split_ifs <;> omega

theorem isPerlSpace_of_isAllowed (c : Char) (h : isAllowed c = true) :
    isPerlSpace c = false := by
  rw [Bool.eq_false_iff]
  intro hs
  rw [isPerlSpace_iff] at hs
  rw [isAllowed_iff] at h
  omega

theorem isAllowed_of_isLowerAlnum (c : Char) (h : isLowerAlnum c = true) :
    isAllowed c = true := by
  simp [isAllowed, h]

theorem ne_dot_of_isLowerAlnum (c : Char) (h : isLowerAlnum c = true) : c ≠ '.' := by
  rintro rfl
  revert h
  decide

theorem replacerTable_of_isAllowed (c : Char) (h : isAllowed c = true) :
    replacerTable c = if c = '.' then [] else [c] := by
  rw [isAllowed_iff] at h
  have h1 : c ≠ '\\' := by
    intro hc
    rw [char_eq_iff_toNat] at hc
    have : ('\\' : Char).toNat = 92 := rfl
    omega
  have h2 : c ≠ ' ' := by
    intro hc
    rw [char_eq_iff_toNat] at hc
    have : (' ' : Char).toNat = 32 := rfl
    omega
  simp only [replacerTable, h1, h2, if_false]


/-! ## The normalizer on character lists -/

/-- The normalizer seen on the characters of the string. -/
theorem normalize_data (s : String) :
    (normalizePerfCounterMetricName s).data =
      re3ReplaceAll (re2ReplaceAll (re1ReplaceAll (stringsToLower (replacerReplace s.data)))) :=
  rfl

theorem normalizeMetricName_data (s : String) :
    (normalizeMetricName s).data =
      re3ReplaceAll (re2ReplaceAll (re1ReplaceAll (stringsToLower s.data))) :=
  rfl

theorem edgesAlnum_iff_reverse (l : List Char) :
    EdgesAlnum l ↔
      (∀ c, l.head? = some c → isLowerAlnum c = true) ∧
        (∀ c, l.reverse.head? = some c → isLowerAlnum c = true) := by
  simp only [EdgesAlnum, List.head?_reverse]

theorem head_dropWhile_alnum (l : List Char) (c : Char)
    (h : (l.dropWhile (fun c => !isLowerAlnum c)).head? = some c) : isLowerAlnum c = true := by
  have := List.head?_dropWhile_not (fun c => !isLowerAlnum c) l
  rw [h] at this
  simpa using this

theorem head_of_initial {l m : List Char} (hp : l <+: m) (c : Char) (h : l.head? = some c) :
    m.head? = some c := by
  obtain ⟨t, rfl⟩ := hp
  cases l with
  | nil => simp at h
  | cons a l => simpa using h

theorem edgesAlnum_re1 (l : List Char) : EdgesAlnum (re1ReplaceAll l) := by
  rw [edgesAlnum_iff_reverse]
  constructor
  · intro c hc
    exact head_dropWhile_alnum l c (head_of_initial ( List.rdropWhile_prefix _ _) c hc)
  · intro c hc
    unfold re1ReplaceAll List.rdropWhile at hc
    rw [List.reverse_reverse] at hc
    exact head_dropWhile_alnum _ c hc

theorem head_map_fix (f : Char → Char) (hf : ∀ c, isLowerAlnum c = true → f c = c)
    (l : List Char) (h : ∀ c, l.head? = some c → isLowerAlnum c = true) :
    ∀ c, (l.map f).head? = some c → isLowerAlnum c = true := by
  intro c hc
  cases l with
  | nil => simp at hc
  | cons a l =>
    have ha := h a rfl
    simp only [List.map_cons, List.head?_cons, Option.some.injEq] at hc
    rw [← hc, hf a ha]
    exact ha

theorem head_filter_keep (p : Char → Bool) (hp : ∀ c, isLowerAlnum c = true → p c = true)
    (l : List Char) (h : ∀ c, l.head? = some c → isLowerAlnum c = true) :
    ∀ c, (l.filter p).head? = some c → isLowerAlnum c = true := by
  intro c hc
  cases l with
  | nil => simp at hc
  | cons a l =>
    have ha := h a rfl
    rw [List.filter_cons_of_pos (hp a ha)] at hc
    simp only [List.head?_cons, Option.some.injEq] at hc
    rw [← hc]
    exact ha

theorem edgesAlnum_map (f : Char → Char) (hf : ∀ c, isLowerAlnum c = true → f c = c)
    (l : List Char) (h : EdgesAlnum l) : EdgesAlnum (l.map f) := by
  rw [edgesAlnum_iff_reverse] at h ⊢
  refine ⟨head_map_fix f hf l h.1, ?_⟩
  rw [← List.map_reverse]
  exact head_map_fix f hf _ h.2

theorem edgesAlnum_filter (p : Char → Bool) (hp : ∀ c, isLowerAlnum c = true → p c = true)
    (l : List Char) (h : EdgesAlnum l) : EdgesAlnum (l.filter p) := by
  rw [edgesAlnum_iff_reverse] at h ⊢
  refine ⟨head_filter_keep p hp l h.1, ?_⟩
  rw [← List.filter_reverse]
  exact head_filter_keep p hp _ h.2

theorem re2_fix_alnum (c : Char) (h : isLowerAlnum c = true) :
    (if isPerlSpace c then '_' else c) = c := by
  rw [isPerlSpace_of_isAllowed c (isAllowed_of_isLowerAlnum c h)]
  rfl

/-- The steps of `normalizeMetricName` after lower-casing produce only characters
of `[a-z0-9._]`, with `[a-z0-9]` at both ends. -/
theorem steps_domain (l : List Char) :
    (∀ c ∈ re3ReplaceAll (re2ReplaceAll (re1ReplaceAll l)), isAllowed c = true) ∧
      EdgesAlnum (re3ReplaceAll (re2ReplaceAll (re1ReplaceAll l))) := by
  constructor
  · intro c hc
    exact (List.mem_filter.mp hc).2
  · exact edgesAlnum_filter isAllowed isAllowed_of_isLowerAlnum _
      (edgesAlnum_map _ re2_fix_alnum _ (edgesAlnum_re1 l))

/-- A list of allowed characters with `[a-z0-9]` at both ends is left alone by
`normalizeMetricName`. -/
theorem steps_fix (u : List Char) (ha : ∀ c ∈ u, isAllowed c = true) (he : EdgesAlnum u) :
    re3ReplaceAll (re2ReplaceAll (re1ReplaceAll (stringsToLower u))) = u := by
  have h1 : stringsToLower u = u := by
    unfold stringsToLower
    conv_rhs => rw [← List.map_id u]
    exact List.map_congr_left (fun c hc => unicodeToLower_of_isAllowed c (ha c hc))
  have h2 : re1ReplaceAll u = u := by
    unfold re1ReplaceAll
    have hd : u.dropWhile (fun c => !isLowerAlnum c) = u := by
      cases u with
      | nil => rfl
      | cons a u =>
        have := he.1 a rfl
        simp [List.dropWhile, this]
    rw [hd, List.rdropWhile_eq_self_iff]
    intro hl
    have := he.2 (u.getLast hl) (List.getLast?_eq_getLast u hl)
    simp [this]
  have h3 : re2ReplaceAll u = u := by
    unfold re2ReplaceAll
    conv_rhs => rw [← List.map_id u]
    refine List.map_congr_left (fun c hc => ?_)
    rw [isPerlSpace_of_isAllowed c (ha c hc)]
    rfl
  have h4 : re3ReplaceAll u = u := by
    unfold re3ReplaceAll
    exact List.filter_eq_self.mpr ha
  rw [h1, h2, h3, h4]

theorem replacer_of_allowed (t : List Char) (ha : ∀ c ∈ t, isAllowed c = true) :
    replacerReplace t = t.filter (fun c => c != '.') := by
  unfold replacerReplace
  induction t with
  | nil => rfl
  | cons a t ih =>
    have iht := ih (fun c hc => ha c (List.mem_cons_of_mem a hc))
    rw [List.flatMap_cons, iht, replacerTable_of_isAllowed a (ha a (List.mem_cons_self a t))]
    by_cases h : a = '.'
    · simp [h]
    · simp [h]

theorem normalize_domain (s : String) :
    (∀ c ∈ (normalizePerfCounterMetricName s).data, isAllowed c = true) ∧
      EdgesAlnum (normalizePerfCounterMetricName s).data := by
  rw [normalize_data]
  exact steps_domain _

theorem normalize_twice (s : String) :
    normalizePerfCounterMetricName (normalizePerfCounterMetricName s) =
      withoutDots (normalizePerfCounterMetricName s) := by
  obtain ⟨ha, he⟩ := normalize_domain s
  apply String.ext
  rw [normalize_data, replacer_of_allowed _ ha]
  refine steps_fix _ ?_ ?_
  · intro c hc
    exact ha c (List.mem_filter.mp hc).1
  · exact edgesAlnum_filter _ (fun c hc => by simpa using ne_dot_of_isLowerAlnum c hc) _ he

theorem edges_cases (l : List Char) (h : EdgesAlnum l) :
    l = [] ∨ ∃ a b, l.head? = some a ∧ l.getLast? = some b ∧
      isLowerAlnum a = true ∧ isLowerAlnum b = true := by
  cases l with
  | nil => exact Or.inl rfl
  | cons x l =>
    right
    refine ⟨x, (x :: l).getLast (List.cons_ne_nil x l), rfl,
      List.getLast?_eq_getLast _ _, h.1 x rfl, h.2 _ (List.getLast?_eq_getLast _ _)⟩


theorem replacer_not_alnum (s : List Char) (h : ∀ c ∈ s, isAlphanumeric c = false) :
    ∀ c ∈ replacerReplace s, isAlphanumeric c = false := by
  intro c hc
  unfold replacerReplace at hc
  rw [List.mem_flatMap] at hc
  obtain ⟨a, ha, hca⟩ := hc
  unfold replacerTable at hca
  split_ifs at hca
  · simp at hca
  · rw [List.mem_singleton] at hca
    rw [hca]
    decide
  · rw [List.mem_singleton] at hca
    rw [hca]
    decide
  · rw [List.mem_singleton] at hca
    rw [hca]
    exact h a ha

theorem re1_of_no_alnum (l : List Char) (h : ∀ c ∈ l, isLowerAlnum c = false) :
    re1ReplaceAll l = [] := by
  unfold re1ReplaceAll
  have hd : l.dropWhile (fun c => !isLowerAlnum c) = [] := by
    rw [List.dropWhile_eq_nil_iff]
    intro c hc
    simp [h c hc]
  rw [hd]
  rfl

/-! ## The claims on the normalizer -/

/-- C1, as stated, fails on the counter path of `main`: normalizing
`\.NET CLR Memory(*)\# Gen 0 Collections` gives `net_clr_memory._gen_0_collections`,
and normalizing that again removes the dot. -/
theorem C1_not_idempotent :
    normalizePerfCounterMetricName "\\.NET CLR Memory(*)\\# Gen 0 Collections" =
        "net_clr_memory._gen_0_collections" ∧
      normalizePerfCounterMetricName
          (normalizePerfCounterMetricName "\\.NET CLR Memory(*)\\# Gen 0 Collections") =
        "net_clr_memory_gen_0_collections" ∧
      normalizePerfCounterMetricName
          (normalizePerfCounterMetricName "\\.NET CLR Memory(*)\\# Gen 0 Collections") ≠
        normalizePerfCounterMetricName "\\.NET CLR Memory(*)\\# Gen 0 Collections" := by
  decide

/-- C1, amended: normalizing a normalized name deletes its dots and changes
nothing else, so `normalizePerfCounterMetricName` is idempotent at `s` exactly
when the normalized name of `s` has no dot. -/
theorem C1_normalize_twice (s : String) :
    normalizePerfCounterMetricName (normalizePerfCounterMetricName s) =
        withoutDots (normalizePerfCounterMetricName s) ∧
      (normalizePerfCounterMetricName (normalizePerfCounterMetricName s) =
          normalizePerfCounterMetricName s ↔
        '.' ∉ (normalizePerfCounterMetricName s).data) := by
  refine ⟨normalize_twice s, ?_⟩
  rw [normalize_twice s]
  constructor
  · intro h hmem
    have hd := congrArg String.data h
    have hf : (normalizePerfCounterMetricName s).data.filter (fun c => c != '.') =
        (normalizePerfCounterMetricName s).data := hd
    rw [List.filter_eq_self] at hf
    simpa using hf '.' hmem
  · intro h
    apply String.ext
    show (normalizePerfCounterMetricName s).data.filter (fun c => c != '.') = _
    rw [List.filter_eq_self]
    intro c hc
    have : c ≠ '.' := fun hcd => h (hcd ▸ hc)
    simpa using this

/-- C2: every character of a normalized name is in `[a-z0-9._]`, and the name is
empty or has a character of `[a-z0-9]` first and last. -/
theorem C2_output_domain (s : String) :
    (∀ c ∈ (normalizePerfCounterMetricName s).data, isAllowed c = true) ∧
      (normalizePerfCounterMetricName s = "" ∨
        ∃ a b, (normalizePerfCounterMetricName s).data.head? = some a ∧
          (normalizePerfCounterMetricName s).data.getLast? = some b ∧
          isLowerAlnum a = true ∧ isLowerAlnum b = true) := by
  obtain ⟨ha, he⟩ := normalize_domain s
  refine ⟨ha, ?_⟩
  rcases edges_cases _ he with h | h
  · exact Or.inl (String.ext h)
  · exact Or.inr h

/-- C3: on `\Processor(_Total)\% Processor Time` the code returns
`processor_total._processor_time`, with the underscore that the space after
`%` turns into, and not the `processor_total.processor_time` of the claim and of
the comment above the replacer. -/
theorem C3_processor_time :
    normalizePerfCounterMetricName "\\Processor(_Total)\\% Processor Time" =
        "processor_total._processor_time" ∧
      normalizePerfCounterMetricName "\\Processor(_Total)\\% Processor Time" ≠
        "processor_total.processor_time" := by
  decide

/-- C9: a string with no letter and no digit normalizes to the empty string. -/
theorem C9_empty_result (s : String) (h : ∀ c ∈ s.data, isAlphanumeric c = false) :
    normalizePerfCounterMetricName s = "" := by
  apply String.ext
  rw [normalize_data]
  have h1 : re1ReplaceAll (stringsToLower (replacerReplace s.data)) = [] := by
    apply re1_of_no_alnum
    intro c hc
    unfold stringsToLower at hc
    rw [List.mem_map] at hc
    obtain ⟨a, ha, rfl⟩ := hc
    rw [isLowerAlnum_unicodeToLower]
    exact replacer_not_alnum s.data h a ha
  rw [h1]
  rfl

/-- C9 at the strings `***` and the empty string. -/
theorem C9_empty_result_witness :
    (∀ c ∈ "***".data, isAlphanumeric c = false) ∧
      normalizePerfCounterMetricName "***" = "" ∧
      normalizePerfCounterMetricName "" = "" :=
  ⟨by decide, C9_empty_result "***" (by decide), C9_empty_result "" (by decide)⟩

/-- C10: `.NET CLR Memory(*)\# Gen 0 Collections` normalizes to
`net_clr_memory._gen_0_collections`. -/
theorem C10_gen_0_collections :
    normalizePerfCounterMetricName ".NET CLR Memory(*)\\# Gen 0 Collections" =
      "net_clr_memory._gen_0_collections" := by
  decide


/-! ## The collection loop -/

theorem length_writeBuf (items filledBuf : List CounterValueItem) :
    (writeBuf items filledBuf).length = filledBuf.length := by
  simp only [writeBuf, List.length_take, List.length_append, List.length_drop]
  omega

theorem getElem?_writeBuf (items filledBuf : List CounterValueItem) (i : Nat)
    (hi : i < items.length) (hl : items.length ≤ filledBuf.length) :
    (writeBuf items filledBuf)[i]? = items[i]? := by
  unfold writeBuf
  rw [List.getElem?_take_of_lt (by omega), List.getElem?_append_left hi]

theorem collectItems_some (counter : String) (filledBuf : List CounterValueItem)
    (clock : Nat → Int) :
    ∀ (todo i : Nat) (metric : List Metric), i + todo ≤ filledBuf.length →
      collectItems counter filledBuf clock todo i metric =
        some (metric ++ (List.range' i todo).map
          (fun j => itemMetric counter (filledBuf[j]?.getD zeroItem) (clock j))) := by
  intro todo
  induction todo with
  | zero => intro i metric _; simp [collectItems]
  | succ n ih =>
    intro i metric h
    have hi : i < filledBuf.length := by omega
    simp only [collectItems, List.getElem?_eq_getElem hi]
    rw [ih (i + 1) _ (by omega)]
    simp [List.range'_succ, List.getElem?_eq_getElem hi]

theorem collectItems_none (counter : String) (filledBuf : List CounterValueItem)
    (clock : Nat → Int) :
    ∀ (todo i : Nat) (metric : List Metric), i ≤ filledBuf.length →
      filledBuf.length < i + todo →
      collectItems counter filledBuf clock todo i metric = none := by
  intro todo
  induction todo with
  | zero => intro i metric h1 h2; omega
  | succ n ih =>
    intro i metric h1 h2
    by_cases hi : i < filledBuf.length
    · simp only [collectItems, List.getElem?_eq_getElem hi]
      exact ih (i + 1) _ (by omega) (by omega)
    · have hn : filledBuf[i]? = none := List.getElem?_eq_none (by omega)
      simp only [collectItems, hn]

theorem tick_of_inBounds (size : Nat) (counter : String) (t : Tick) (h : InBounds size t) :
    tick size counter t =
      if t.collect = ERROR_SUCCESS then TickOutcome.published (tickBatch size counter t)
      else TickOutcome.skipped := by
  by_cases hc : t.collect = ERROR_SUCCESS
  · rw [if_pos hc]
    by_cases hf : t.first.ret = PDH_MORE_DATA
    · obtain ⟨hpos, hcount⟩ := h hc hf
      by_cases hs : t.second.ret = ERROR_SUCCESS
      · have hle := hcount hs
        have hsome := collectItems_some counter
          (writeBuf t.second.items
            (List.replicate ((t.first.bufCount * size) % 2 ^ 32) zeroItem)) t.clock
          t.second.bufCount 0 [] (by rw [length_writeBuf, List.length_replicate]; omega)
        have hne : ¬ (t.first.bufCount * size) % 2 ^ 32 = 0 := by omega
        simp only [tickBatch, tick, hc, hf, hs, if_true, List.length_replicate, hne, if_false,
          hsome]
      · have hne : ¬ (t.first.bufCount * size) % 2 ^ 32 = 0 := by omega
        simp only [tickBatch, tick, hc, hf, hs, if_true, List.length_replicate, hne, if_false]
    · simp only [tickBatch, tick, hc, hf, if_true, if_false]
  · simp only [tick, hc, if_false]

/-- The loop body panics exactly on the array answers that leave the allocated
buffer. -/
theorem tick_panicked_iff (size : Nat) (counter : String) (t : Tick) :
    tick size counter t = TickOutcome.panicked ↔ ¬ InBounds size t := by
  constructor
  · intro hp hin
    rw [tick_of_inBounds size counter t hin] at hp
    split_ifs at hp
  · intro hin
    unfold InBounds at hin
    push_neg at hin
    obtain ⟨hc, hf, hrest⟩ := hin
    by_cases hz : (t.first.bufCount * size) % 2 ^ 32 = 0
    · simp only [tick, hc, hf, if_true, List.length_replicate, hz]
    · obtain ⟨hs, hgt⟩ := hrest (by omega)
      have hnone := collectItems_none counter
        (writeBuf t.second.items
          (List.replicate ((t.first.bufCount * size) % 2 ^ 32) zeroItem)) t.clock
        t.second.bufCount 0 [] (Nat.zero_le _)
        (by rw [length_writeBuf, List.length_replicate]; omega)
      simp only [tick, hc, hf, hs, if_true, List.length_replicate, hz, if_false, hnone]

theorem batches_steadyState (size : Nat) (counter : String) (sleepInterval : Int) :
    ∀ ticks : List Tick, (∀ t ∈ ticks, InBounds size t) →
      batches (steadyState size counter sleepInterval ticks) =
        (ticks.filter collectOk).map (tickBatch size counter) := by
  intro ticks
  induction ticks with
  | nil => intro _; rfl
  | cons t rest ih =>
    intro h
    have ht := tick_of_inBounds size counter t (h t (List.mem_cons_self t rest))
    have ihr := ih (fun u hu => h u (List.mem_cons_of_mem t hu))
    by_cases hc : t.collect = ERROR_SUCCESS
    · rw [if_pos hc] at ht
      have hok : collectOk t = true := by simp [collectOk, hc]
      simp only [steadyState, ht, batches, List.filterMap_cons, List.filter_cons_of_pos hok,
        List.map_cons]
      exact congrArg _ ihr
    · rw [if_neg hc] at ht
      have hok : ¬ collectOk t = true := by simp [collectOk, hc]
      simp only [steadyState, ht, batches, List.filterMap_cons, List.filter_cons_of_neg hok]
      exact ihr

theorem sleeps_steadyState (size : Nat) (counter : String) (sleepInterval : Int) :
    ∀ ticks : List Tick, (∀ t ∈ ticks, InBounds size t) →
      (steadyState size counter sleepInterval ticks).count
        (Event.sleep (sleepDuration sleepInterval)) = ticks.length := by
  intro ticks
  induction ticks with
  | nil => intro _; rfl
  | cons t rest ih =>
    intro h
    have ht := tick_of_inBounds size counter t (h t (List.mem_cons_self t rest))
    have ihr := ih (fun u hu => h u (List.mem_cons_of_mem t hu))
    by_cases hc : t.collect = ERROR_SUCCESS
    · rw [if_pos hc] at ht
      simp only [steadyState, ht, List.length_cons]
      rw [List.count_cons_of_ne (by simp), List.count_cons_self, ihr]
    · rw [if_neg hc] at ht
      simp only [steadyState, ht, List.length_cons]
      rw [List.count_cons_self, ihr]


theorem length_pos_iff_ne_empty (s : String) : s.length > 0 ↔ s ≠ "" := by
  constructor
  · rintro h rfl
    exact absurd h (by decide)
  · intro h
    cases hs : s.data with
    | nil => exact absurd (String.ext hs) h
    | cons a l =>
      show s.data.length > 0
      rw [hs]
      exact Nat.succ_pos _

theorem metricName_data (counter s : String) :
    (metricName counter s).data =
      if s = "" then (normalizePerfCounterMetricName counter).data
      else (normalizePerfCounterMetricName counter).data ++
        '.' :: (normalizePerfCounterMetricName s).data := by
  unfold metricName
  by_cases h : s = ""
  · subst h
    rfl
  · have hl : s.length > 0 := (length_pos_iff_ne_empty s).mpr h
    simp only [hl, h, if_true, if_false, String.data_append]
    rw [List.append_assoc]
    rfl

theorem edgesAlnum_join (P I : List Char) (hP : EdgesAlnum P) (hI : EdgesAlnum I) :
    EdgesAlnum (P ++ '.' :: I) ↔ P ≠ [] ∧ I ≠ [] := by
  have hdot : isLowerAlnum '.' = false := by decide
  constructor
  · intro h
    constructor
    · rintro rfl
      have := h.1 '.' rfl
      rw [hdot] at this
      exact absurd this (by decide)
    · rintro rfl
      have := h.2 '.' (by simp)
      rw [hdot] at this
      exact absurd this (by decide)
  · rintro ⟨hp, hi⟩
    constructor
    · intro c hc
      cases P with
      | nil => exact absurd rfl hp
      | cons a P => exact hP.1 c (by simpa using hc)
    · intro c hc
      apply hI.2 c
      rw [← List.head?_reverse] at hc ⊢
      rw [List.reverse_append, List.reverse_cons] at hc
      cases hr : I.reverse with
      | nil => exact absurd (List.reverse_eq_nil_iff.mp hr) hi
      | cons b R =>
        rw [hr] at hc
        simpa using hc

/-! ## The claims on the collection loop -/

/-- C4: the name of the sample built for an entry is the normalized counter path
alone when the entry has an empty instance name, and otherwise the normalized
path, a dot, and the normalized instance name. -/
theorem C4_sample_name (counter : String) (c : CounterValueItem) (now : Int) :
    (itemMetric counter c now).Name =
      if c.SzName = "" then normalizePerfCounterMetricName counter
      else normalizePerfCounterMetricName counter ++ "." ++
        normalizePerfCounterMetricName c.SzName := by
  show metricName counter c.SzName = _
  unfold metricName
  by_cases h : c.SzName = ""
  · rw [h]
    rfl
  · have hl : c.SzName.length > 0 := (length_pos_iff_ne_empty _).mpr h
    simp only [hl, h, if_true, if_false]

/-- C5, as stated, fails for an instance name without letter or digit: for the
path `\Processor(*)\% Processor Time` and the instance name `*` the sample is
named `processor._processor_time.`, which ends with a dot. -/
theorem C5_trailing_dot :
    (itemMetric "\\Processor(*)\\% Processor Time" { SzName := "*", DoubleValue := "0" } 0).Name =
        "processor._processor_time." ∧
      (itemMetric "\\Processor(*)\\% Processor Time"
          { SzName := "*", DoubleValue := "0" } 0).Name.data.getLast? = some '.' ∧
      isLowerAlnum '.' = false := by
  decide

/-- C5, amended: a sample name has only characters of `[a-z0-9._]`; its first and
last characters are in `[a-z0-9]` exactly when the instance name is empty or the
normalized path and the normalized instance name are both non-empty. -/
theorem C5_sample_name_domain (counter : String) (c : CounterValueItem) (now : Int) :
    (∀ x ∈ (itemMetric counter c now).Name.data, isAllowed x = true) ∧
      (EdgesAlnum (itemMetric counter c now).Name.data ↔
        (c.SzName = "" ∨
          (normalizePerfCounterMetricName counter ≠ "" ∧
            normalizePerfCounterMetricName c.SzName ≠ ""))) := by
  show (∀ x ∈ (metricName counter c.SzName).data, isAllowed x = true) ∧
    (EdgesAlnum (metricName counter c.SzName).data ↔ _)
  rw [metricName_data]
  obtain ⟨hPa, hPe⟩ := normalize_domain counter
  obtain ⟨hIa, hIe⟩ := normalize_domain c.SzName
  by_cases h : c.SzName = ""
  · simp only [h, if_true, true_or, iff_true]
    exact ⟨hPa, hPe⟩
  · simp only [h, if_false, false_or]
    constructor
    · intro x hx
      rw [List.mem_append, List.mem_cons] at hx
      rcases hx with hx | hx | hx
      · exact hPa x hx
      · rw [hx]
        decide
      · exact hIa x hx
    · rw [edgesAlnum_join _ _ hPe hIe]
      have e1 : ∀ s : String, s.data ≠ [] ↔ s ≠ "" := fun s =>
        ⟨fun hs hn => hs (congrArg String.data hn), fun hs hn => hs (String.ext hn)⟩
      rw [e1, e1]


/-- C6: `readPerformanceCounter` returns an error and a nil channel exactly when
setup fails in one of its four steps, and otherwise the open channel of the
started goroutine and no error; when validation reports a bad counter name, no
channel is returned and the counter is never registered. -/
theorem C6_setup_errors (p : Provider) (size : Nat) (counter : String) (sleepInterval : Int) :
    (((readPerformanceCounter p size counter sleepInterval).err.isSome = true ∧
        (readPerformanceCounter p size counter sleepInterval).out = none) ↔
      SetupFails p counter) ∧
    (((readPerformanceCounter p size counter sleepInterval).out =
          some (steadyState size counter sleepInterval p.ticks) ∧
        (readPerformanceCounter p size counter sleepInterval).err = none) ↔
      ¬ SetupFails p counter) ∧
    (p.validatePath counter = PDH_CSTATUS_BAD_COUNTERNAME →
      (readPerformanceCounter p size counter sleepInterval).out = none ∧
        (readPerformanceCounter p size counter sleepInterval).err.isSome = true ∧
        ∀ x, Call.addEnglishCounter x ∉
          (readPerformanceCounter p size counter sleepInterval).calls) := by
  unfold readPerformanceCounter SetupFails
  by_cases h1 : p.openQuery = ERROR_SUCCESS
  · by_cases h2 : p.validatePath counter = PDH_CSTATUS_BAD_COUNTERNAME
    · simp [h1, h2]
    · by_cases h3 : p.addEnglishCounter counter = ERROR_SUCCESS
      · by_cases h4 : p.priming = ERROR_SUCCESS
        · simp [h1, h2, h3, h4]
        · simp [h1, h2, h3, h4]
      · simp [h1, h2, h3]
  · simp [h1]

/-- C6 at a provider whose validation reports a bad counter name. -/
theorem C6_setup_errors_witness :
    badNameProvider.validatePath "\\Processor(*)\\% Processor Time" =
        PDH_CSTATUS_BAD_COUNTERNAME ∧
      (readPerformanceCounter badNameProvider 24 "\\Processor(*)\\% Processor Time" 10).out =
        none ∧
      (readPerformanceCounter badNameProvider 24
        "\\Processor(*)\\% Processor Time" 10).err.isSome = true ∧
      ∀ x, Call.addEnglishCounter x ∉
        (readPerformanceCounter badNameProvider 24 "\\Processor(*)\\% Processor Time" 10).calls :=
  ⟨rfl, (C6_setup_errors badNameProvider 24 "\\Processor(*)\\% Processor Time" 10).2.2 rfl⟩

/-- Over any sequence of iterations whose array answers stay inside the
allocated buffer, the batches sent are, in order, those of the iterations whose
collection pass succeeds, one each, and every iteration, failed or not, is
followed by the sleep. -/
theorem isolation_of_inBounds (size : Nat) (counter : String) (sleepInterval : Int)
    (ticks : List Tick) (h : ∀ t ∈ ticks, InBounds size t) :
    batches (steadyState size counter sleepInterval ticks) =
        (ticks.filter collectOk).map (tickBatch size counter) ∧
      (batches (steadyState size counter sleepInterval ticks)).length =
        ticks.countP collectOk ∧
      (steadyState size counter sleepInterval ticks).count
        (Event.sleep (sleepDuration sleepInterval)) = ticks.length := by
  refine ⟨batches_steadyState size counter sleepInterval ticks h, ?_,
    sleeps_steadyState size counter sleepInterval ticks h⟩
  rw [batches_steadyState size counter sleepInterval ticks h, List.length_map,
    List.countP_eq_length_filter]

/-- Three iterations of which the second fails in its collection pass: two
batches are sent, those of the first and the third iteration. -/
theorem isolation_three_ticks :
    batches (steadyState 24 "\\Processor(*)\\% Processor Time" 10
        [twoInstanceTick, failedTick, twoInstanceTick]) =
      [tickBatch 24 "\\Processor(*)\\% Processor Time" twoInstanceTick,
        tickBatch 24 "\\Processor(*)\\% Processor Time" twoInstanceTick] :=
  (isolation_of_inBounds 24 "\\Processor(*)\\% Processor Time" 10
    [twoInstanceTick, failedTick, twoInstanceTick] (by decide)).1

/-- C7: the code at three iterations whose collection passes all succeed, the
second answering more data for zero instances.  The first batch is sent, the
second iteration panics at `&filledBuf[0]`, and nothing is sent for the second
and the third iteration: one batch for three successful collection passes. -/
theorem C7_panic_after_successful_collect :
    [twoInstanceTick, zeroCountTick, twoInstanceTick].countP collectOk = 3 ∧
      steadyState 24 "\\Processor(*)\\% Processor Time" 10
          [twoInstanceTick, zeroCountTick, twoInstanceTick] =
        [Event.send (tickBatch 24 "\\Processor(*)\\% Processor Time" twoInstanceTick),
          Event.sleep 10000000000, Event.panic] ∧
      (batches (steadyState 24 "\\Processor(*)\\% Processor Time" 10
          [twoInstanceTick, zeroCountTick, twoInstanceTick])).length = 1 ∧
      (batches (steadyState 24 "\\Processor(*)\\% Processor Time" 10
          [twoInstanceTick, zeroCountTick, twoInstanceTick])).length ≠
        [twoInstanceTick, zeroCountTick, twoInstanceTick].countP collectOk := by
  decide

/-- C8, as stated, fails when the first array call already returns success: with
one instance reported, the batch sent has no sample. -/
theorem C8_first_call_success :
    firstCallSuccessTick.collect = ERROR_SUCCESS ∧
      firstCallSuccessTick.first.ret = ERROR_SUCCESS ∧
      firstCallSuccessTick.first.bufCount = 1 ∧
      tick 24 "\\Processor(*)\\% Processor Time" firstCallSuccessTick =
        TickOutcome.published [] ∧
      (tickBatch 24 "\\Processor(*)\\% Processor Time" firstCallSuccessTick).length ≠ 1 := by
  decide

/-- C8, amended: when the collection pass succeeds, the first array call signals
more data for `N` instances, with `N` at least one and `N * size` below `2 ^ 32`,
and the second call succeeds with these `N` entries, the batch sent has exactly
`N` samples, sample `i` built from entry `i`; and when the first call returns any
status other than more-data, success included, the batch sent is empty. -/
theorem C8_batch_size (size : Nat) (counter : String) (t : Tick) (N : Nat)
    (hc : t.collect = ERROR_SUCCESS) (hf : t.first.ret = PDH_MORE_DATA)
    (hn : t.first.bufCount = N) (hs : t.second.ret = ERROR_SUCCESS)
    (hn2 : t.second.bufCount = N) (hitems : t.second.items.length = N)
    (hpos : 0 < N) (hsize : 0 < size) (hfit : N * size < 2 ^ 32) :
    tick size counter t =
        TickOutcome.published ((List.range N).map
          (fun i => itemMetric counter (t.second.items[i]?.getD zeroItem) (t.clock i))) ∧
      (tickBatch size counter t).length = N ∧
      ∀ u : Tick, u.collect = ERROR_SUCCESS → u.first.ret ≠ PDH_MORE_DATA →
        tick size counter u = TickOutcome.published [] := by
  have hmod : (t.first.bufCount * size) % 2 ^ 32 = N * size := by
    rw [hn]
    exact Nat.mod_eq_of_lt hfit
  have hle : N ≤ N * size := Nat.le_mul_of_pos_right N hsize
  have hne : ¬ N * size = 0 := by omega
  have hsome := collectItems_some counter
    (writeBuf t.second.items (List.replicate (N * size) zeroItem)) t.clock N 0 []
    (by rw [length_writeBuf, List.length_replicate]; omega)
  have hmap : (List.range' 0 N).map
        (fun j => itemMetric counter
          ((writeBuf t.second.items (List.replicate (N * size) zeroItem))[j]?.getD zeroItem)
          (t.clock j)) =
      (List.range N).map
        (fun i => itemMetric counter (t.second.items[i]?.getD zeroItem) (t.clock i)) := by
    rw [List.range_eq_range']
    apply List.map_congr_left
    intro j hj
    have hjN : j < N := by
      have := (List.mem_range'_1.mp hj).2
      omega
    rw [getElem?_writeBuf _ _ j (by omega) (by rw [List.length_replicate]; omega)]
  rw [hmap, List.nil_append] at hsome
  have htick : tick size counter t =
      TickOutcome.published ((List.range N).map
        (fun i => itemMetric counter (t.second.items[i]?.getD zeroItem) (t.clock i))) := by
    simp only [tick, hc, hf, hs, hn2, hmod, if_true, List.length_replicate, hne, if_false, hsome]
  refine ⟨htick, ?_, ?_⟩
  · simp only [tickBatch, htick, List.length_map, List.length_range]
  · intro u huc huf
    simp only [tick, huc, huf, if_true, if_false]

/-- C8 at an iteration with two instances, `_Total` and `0`. -/
theorem C8_batch_size_witness :
    tick 24 "\\Processor(*)\\% Processor Time" twoInstanceTick =
        TickOutcome.published
          [{ Name := "processor._processor_time.total", Value := "12.5",
             Timestamp := 1478041200 },
           { Name := "processor._processor_time.0", Value := "3", Timestamp := 1478041200 }] ∧
      (tickBatch 24 "\\Processor(*)\\% Processor Time" twoInstanceTick).length = 2 :=
  ⟨(C8_batch_size 24 "\\Processor(*)\\% Processor Time" twoInstanceTick 2
      rfl rfl rfl rfl rfl rfl (by decide) (by decide) (by decide)).1,
    (C8_batch_size 24 "\\Processor(*)\\% Processor Time" twoInstanceTick 2
      rfl rfl rfl rfl rfl rfl (by decide) (by decide) (by decide)).2.1⟩

/-- An iteration whose first array call signals more data for zero instances
panics at `&filledBuf[0]`. -/
theorem zero_count_panics :
    tick 24 "\\Processor(*)\\% Processor Time" zeroCountTick = TickOutcome.panicked := by
  decide

end Perfcounterbeat
